import Mathlib

/-!
Verification of the presentation core of the `leetcode-accountability`
repository (`leetcode_accountability/presenters.py`): the text and HTML
presenters, the presenter factory, and file persistence.  The Python code is
shallowly embedded below; theorems about the embedded definitions settle the
behavioural claims about sorting, ranking medals, rendering, parsing the
rendered reports back, the factory, and error behaviour.
-/

namespace LeetcodeAccountability

/-- Modelled from the spec: the `UserStats` record imported by
`presenters.py` from `leetcode_accountability.entities`, a module that is not
among the presented sources.  Per spec section 3 a UserStat holds a username
string and non-negative integer counts `total_questions`, `easy_count`,
`medium_count`, `hard_count`. -/
structure UserStats where
  username : String
  total_questions : Nat
  easy_count : Nat
  medium_count : Nat
  hard_count : Nat
deriving DecidableEq

/-- The four numeric fields of a record, in report column order. -/
def numericFields (u : UserStats) : Nat × Nat × Nat × Nat :=
  (u.total_questions, u.easy_count, u.medium_count, u.hard_count)

/-- Decimal digit character for `d < 10`; models the digits used by Python
`str(int)`. -/
def digitChar (d : Nat) : Char :=
  match d with
  | 0 => '0'
  | 1 => '1'
  | 2 => '2'
  | 3 => '3'
  | 4 => '4'
  | 5 => '5'
  | 6 => '6'
  | 7 => '7'
  | 8 => '8'
  | 9 => '9'
  | _ => '*'

/-- Fuel-driven digit accumulator (most significant digit first); any
`fuel > n` yields the full decimal expansion of `n`. -/
def natDigitsAux : Nat → Nat → List Char → List Char
  | 0, _, ds => ds
  | fuel + 1, n, ds =>
    if n < 10 then digitChar n :: ds
    else natDigitsAux fuel (n / 10) (digitChar (n % 10) :: ds)

/-- Decimal digit string of a natural number, most significant digit first. -/
def natDigits (n : Nat) : List Char := natDigitsAux (n + 1) n []

/-- Models Python `str` applied to a non-negative `int`. -/
def natRepr (n : Nat) : String := String.mk (natDigits n)

/-- Models Python `str.endswith`: the argument is a suffix of the string. -/
def strEndsWith (s suffix : String) : Bool :=
  suffix.data.isSuffixOf s.data

/-- Models Python `str.lower` on the ASCII range relevant to the factory
keys: lowercase every character. -/
def strLower (s : String) : String :=
  String.mk (s.data.map Char.toLower)

/-- Models Python `str` applied to an `int` of either sign. -/
def intRepr (i : Int) : String :=
  if i < 0 then "-" ++ natRepr i.natAbs else natRepr i.toNat

/-- Models the Python format spec `:<w` used in the text rows: left justify,
padding with spaces up to width `w`; a string longer than `w` is kept whole. -/
def padStr (s : String) (w : Nat) : String :=
  s ++ String.mk (List.replicate (w - s.length) ' ')

/-- Models Python `"\n".join(parts)`. -/
def joinLines : List String → String
  | [] => ""
  | [x] => x
  | x :: y :: rest => x ++ "\n" ++ joinLines (y :: rest)

/-- The separator rule `"-" * 80`. -/
def sep80 : String := String.mk (List.replicate 80 '-')

/-- The comparison underlying
`sorted(user_stats_list, key=lambda x: x.total_questions, reverse=True)`:
`a` may come before `b` when `a`'s total is at least `b`'s. -/
def byTotalDesc (a b : UserStats) : Prop :=
  b.total_questions ≤ a.total_questions

instance : DecidableRel byTotalDesc := fun _ _ => Nat.decLe _ _

instance : IsTotal UserStats byTotalDesc :=
  ⟨fun a b => Nat.le_total b.total_questions a.total_questions⟩

instance : IsTrans UserStats byTotalDesc :=
  ⟨fun _ _ _ h1 h2 => Nat.le_trans h2 h1⟩

/-- Python's `sorted` is a stable sort; with the key `total_questions` and
`reverse=True` it coincides with this stable insertion sort, which both
presenters use on their input list. -/
def sortStats (l : List UserStats) : List UserStats :=
  l.insertionSort byTotalDesc

/-- The medal suffix appended to `username_display` for ranks 0, 1, 2 in
`TextPresenter.present_stats`; the empty string for every later rank. -/
def medalText (i : Nat) : String :=
  if i = 0 then " 🥇" else if i = 1 then " 🥈" else if i = 2 then " 🥉" else ""

/-- The `username_display` value for the text row of rank `i`. -/
def textDisplay (i : Nat) (u : UserStats) : String :=
  u.username ++ medalText i

/-- The fixed-width text data row of rank `i`. -/
def textRow (i : Nat) (u : UserStats) : String :=
  padStr (textDisplay i u) 25 ++ " " ++ padStr (natRepr u.total_questions) 15 ++ " " ++
    padStr (natRepr u.easy_count) 10 ++ " " ++ padStr (natRepr u.medium_count) 10 ++ " " ++
    padStr (natRepr u.hard_count) 10

/-- The fixed-width column header row of the text report. -/
def textHeaderRow : String :=
  padStr ("Username") 25 ++ " " ++ padStr ("Total Questions") 15 ++ " " ++
    padStr ("Easy") 10 ++ " " ++ padStr ("Medium") 10 ++ " " ++ padStr ("Hard") 10

/-- The trailing message lines added by `if completion_message:`; Python
truthiness makes `None` and the empty string behave alike here. -/
def msgLines (msg : Option String) : List String :=
  match msg with
  | none => []
  | some m => if m = "" then [] else [m]

/-- The report title text (without the leading newline of the f-string). -/
def titleLine (days : Int) : String :=
  "LeetCode Statistics (Last " ++ intRepr days ++ " Days)"

namespace TextPresenter

/-- The `output` list built by `TextPresenter.present_stats`; its first
element carries the leading `\n` of the title f-string. -/
def outputLines (user_stats_list : List UserStats) (days : Int)
    (completion_message : Option String) : List String :=
  ("\n" ++ titleLine days) :: sep80 :: textHeaderRow :: sep80 ::
    ((sortStats user_stats_list).enum.map (fun p => textRow p.1 p.2) ++ [sep80] ++
      msgLines completion_message)

/-- `TextPresenter.present_stats`: the full plain-text report string. -/
def present_stats (user_stats_list : List UserStats) (days : Int)
    (completion_message : Option String) : String :=
  joinLines (outputLines user_stats_list days completion_message)

/-- The path actually written by `TextPresenter.write_to_file`: `.txt` is
appended unless the filename already ends with it. -/
def target (filename : String) : String :=
  if strEndsWith filename (".txt") then filename else filename ++ ".txt"

/-- `TextPresenter.write_to_file`, with the file system modelled as a map
from paths to contents; `open(filename, "w")` plus a single `write` replaces
the whole file at the target path. -/
def write_to_file (fs : String → Option String) (filename : String)
    (content : String) : String → Option String :=
  fun p => if p = target filename then some content else fs p

end TextPresenter

namespace HtmlPresenter

/-- The fixed HTML document head produced by `HtmlPresenter.present_stats`
(first `html_parts.extend`). -/
def headerLines : List String :=
  ["<!DOCTYPE html>",
   "<html>",
   "<head>",
   "    <meta charset=\x27UTF-8\x27>",
   "    <meta name=\x27viewport\x27 content=\x27width=device-width, initial-scale=1.0\x27>",
   "    <title>LeetCode Accountability Report</title>",
   "    <style>",
   "        body \x7b font-family: Arial, sans-serif; margin: 20px; \x7d",
   "        h1 \x7b color: #333; \x7d",
   "        table \x7b border-collapse: collapse; width: 100%; margin-top: 20px; \x7d",
   "        th, td \x7b padding: 12px; text-align: left; border-bottom: 1px solid #ddd; \x7d",
   "        th \x7b background-color: #f2f2f2; \x7d",
   "        tr:hover \x7b background-color: #f5f5f5; \x7d",
   "        .message \x7b margin: 20px 0; padding: 15px; background-color: #f8f9fa; border-left: 5px solid #4285f4; \x7d",
   "        .first-place \x7b font-weight: bold; \x7d",
   "        .medal \x7b font-size: 1.2em; \x7d",
   "    </style>",
   "</head>",
   "<body>"]

/-- The stats heading and table header (second `html_parts.extend`). -/
def statsHeaderLines (days : Int) : List String :=
  ["<h1>LeetCode Statistics (Last " ++ intRepr days ++ " Days)</h1>",
   "<table>",
   "    <tr>",
   "        <th>Username</th>",
   "        <th>Total Questions</th>",
   "        <th>Easy</th>",
   "        <th>Medium</th>",
   "        <th>Hard</th>",
   "    </tr>"]

/-- The `row_class` attribute text: only the first-place row gets a class. -/
def rowCls (i : Nat) : String :=
  if i = 0 then " class=\"first-place\"" else ""

/-- The `medal` markup appended inside the username cell for ranks 0, 1, 2;
the empty string for every later rank. -/
def medal (i : Nat) : String :=
  if i = 0 then " <span class=\"medal\">🥇</span>"
  else if i = 1 then " <span class=\"medal\">🥈</span>"
  else if i = 2 then " <span class=\"medal\">🥉</span>"
  else ""

/-- The seven HTML lines appended for the data row of rank `i`. -/
def rowLines (i : Nat) (u : UserStats) : List String :=
  ["    <tr" ++ rowCls i ++ ">",
   "        <td><a href=\"https://leetcode.com/u/" ++ u.username ++ "/\" target=\"_blank\">" ++
     u.username ++ "</a>" ++ medal i ++ "</td>",
   "        <td>" ++ natRepr u.total_questions ++ "</td>",
   "        <td>" ++ natRepr u.easy_count ++ "</td>",
   "        <td>" ++ natRepr u.medium_count ++ "</td>",
   "        <td>" ++ natRepr u.hard_count ++ "</td>",
   "    </tr>"]

/-- The optional message callout added by `if completion_message:`. -/
def msgDivLines (msg : Option String) : List String :=
  match msg with
  | none => []
  | some m => if m = "" then [] else ["<div class=\x27message\x27>" ++ m ++ "</div>"]

/-- The `html_parts` list built by `HtmlPresenter.present_stats`. -/
def outputLines (user_stats_list : List UserStats) (days : Int)
    (completion_message : Option String) : List String :=
  headerLines ++ statsHeaderLines days ++
    ((sortStats user_stats_list).enum.map (fun p => rowLines p.1 p.2)).flatten ++
    ["</table>"] ++ msgDivLines completion_message ++ ["</body>", "</html>"]

/-- `HtmlPresenter.present_stats`: the full HTML report string. -/
def present_stats (user_stats_list : List UserStats) (days : Int)
    (completion_message : Option String) : String :=
  joinLines (outputLines user_stats_list days completion_message)

/-- The path actually written by `HtmlPresenter.write_to_file`: `.html` is
appended unless the filename already ends with it. -/
def target (filename : String) : String :=
  if strEndsWith filename (".html") then filename else filename ++ ".html"

/-- `HtmlPresenter.write_to_file`, with the file system modelled as a map
from paths to contents. -/
def write_to_file (fs : String → Option String) (filename : String)
    (content : String) : String → Option String :=
  fun p => if p = target filename then some content else fs p

end HtmlPresenter

/-- The two presenter classes, as values selectable by the factory. -/
inductive PresenterKind
  | text
  | html
deriving DecidableEq

/-- The default value of the factory's `output_type` parameter. -/
def defaultOutputType : String := "text"

/-- `get_presenter`: the factory function selecting a presenter by key. -/
def get_presenter (output_type : String := defaultOutputType) : PresenterKind :=
  if strLower output_type = "html" then PresenterKind.html else PresenterKind.text

/-- Case-insensitive string equality (both sides lowercased), the sense in
which the factory key is matched. -/
def caseInsensitiveEq (a b : String) : Prop :=
  strLower a = strLower b

/-! ## Parsers reading the rendered reports back (used for the round-trip
claim) -/

/-- Split a character stream at newline characters: the inverse of joining
lines with a single newline. -/
def splitLines : List Char → List (List Char)
  | [] => [[]]
  | c :: cs =>
    if c = '\n' then [] :: splitLines cs
    else
      match splitLines cs with
      | [] => [[c]]
      | l :: ls => (c :: l) :: ls

/-- Character-level join with newline; agrees with `joinLines` on `data`. -/
def joinChars : List (List Char) → List Char
  | [] => []
  | [x] => x
  | x :: y :: rest => x ++ '\n' :: joinChars (y :: rest)

/-- Numeric value of a decimal digit character. -/
def digitVal (c : Char) : Nat := c.toNat - 48

/-- Parse a most-significant-first decimal digit string. -/
def parseNat (cs : List Char) : Nat :=
  cs.foldl (fun acc c => acc * 10 + digitVal c) 0

/-- The numeral occupying a fixed-width column at offset `o` and width `w`:
the column's characters up to its space padding. -/
def fixedField (o w : Nat) (cs : List Char) : List Char :=
  ((cs.drop o).take w).takeWhile (fun c => c != ' ')

/-- Recover the four numeric fields from one fixed-width text data row; the
columns sit at offsets 26, 42, 53, 64 with widths 15, 10, 10, 10. -/
def parseTextRow (cs : List Char) : Nat × Nat × Nat × Nat :=
  (parseNat (fixedField 26 15 cs), parseNat (fixedField 42 10 cs),
   parseNat (fixedField 53 10 cs), parseNat (fixedField 64 10 cs))

/-- Parse a text report back: split into lines, skip the five leading header
lines, take data rows up to the closing separator rule, parse each row. -/
def parseTextReport (s : String) : List (Nat × Nat × Nat × Nat) :=
  (((splitLines s.data).drop 5).takeWhile (fun l => l != List.replicate 80 '-')).map
    parseTextRow

/-- The text inside one numeric `<td>` line: strip the 12-character
indentation plus opening tag and the 5-character closing tag. -/
def stripCell (cs : List Char) : List Char :=
  (cs.drop 12).take (cs.length - 17)

/-- Recover the numeric cells of successive 7-line HTML table rows. -/
def parseHtmlRows : List (List Char) → List (Nat × Nat × Nat × Nat)
  | _ :: _ :: l2 :: l3 :: l4 :: l5 :: _ :: rest =>
    (parseNat (stripCell l2), parseNat (stripCell l3), parseNat (stripCell l4),
      parseNat (stripCell l5)) :: parseHtmlRows rest
  | _ => []

/-- Parse an HTML report back: split into lines, skip the 28 document and
table header lines, take the row lines up to `</table>`, extract cells. -/
def parseHtmlReport (s : String) : List (Nat × Nat × Nat × Nat) :=
  parseHtmlRows (((splitLines s.data).drop 28).takeWhile
    (fun l => l != ("</table>").data))

/-! ## Dynamic (Python-typed) records, for the input-validation claim.
The typed embedding above cannot express malformed records, so the error
behaviour of `present_stats` on invalid input is modelled over dynamic
records whose attributes may be missing or ill-typed. -/

namespace Dyn

/-- A dynamic field value: a Python `int`, `str`, or `None`. -/
inductive PyVal
  | vint (i : Int)
  | vstr (s : String)
  | vnone
deriving DecidableEq

/-- A UserStat-shaped record whose required attributes may be missing
(`none`) or hold a value of the wrong runtime type. -/
structure DynRecord where
  username : Option PyVal
  total_questions : Option PyVal
  easy_count : Option PyVal
  medium_count : Option PyVal
  hard_count : Option PyVal
deriving DecidableEq

/-- The runtime errors Python can raise in `present_stats`. -/
inductive PyErr
  | attributeError
  | typeError
deriving DecidableEq

/-- Attribute access: a missing attribute raises `AttributeError`. -/
def getattr : Option PyVal → Except PyErr PyVal
  | none => Except.error PyErr.attributeError
  | some v => Except.ok v

/-- Python `str()` of a value; always succeeds (`str(None)` is "None"). -/
def pyStr : PyVal → String
  | PyVal.vint i => intRepr i
  | PyVal.vstr s => s
  | PyVal.vnone => "None"

/-- Python formatting with the `:<w` spec: ints and strs pad fine, while
`None.__format__` with a non-empty format spec raises `TypeError`. -/
def pyFormatPad : PyVal → Nat → Except PyErr String
  | PyVal.vint i, w => Except.ok (padStr (intRepr i) w)
  | PyVal.vstr s, w => Except.ok (padStr s w)
  | PyVal.vnone, _ => Except.error PyErr.typeError

/-- Python `<=` between two sort keys: defined within ints and within strs,
`TypeError` across types or on `None`. -/
def pyLe : PyVal → PyVal → Except PyErr Bool
  | PyVal.vint i, PyVal.vint j => Except.ok (decide (i ≤ j))
  | PyVal.vstr s, PyVal.vstr t => Except.ok (decide (s ≤ t))
  | _, _ => Except.error PyErr.typeError

/-- Stable descending insertion of a keyed record, with fallible key
comparison. -/
def insertPairDesc (x : PyVal × DynRecord) :
    List (PyVal × DynRecord) → Except PyErr (List (PyVal × DynRecord))
  | [] => Except.ok [x]
  | y :: ys => do
    let b ← pyLe y.1 x.1
    if b then
      return x :: y :: ys
    else
      let r ← insertPairDesc x ys
      return y :: r

/-- Stable sort of keyed records; errors only when two keys compare with a
`TypeError`. -/
def sortPairsDesc : List (PyVal × DynRecord) → Except PyErr (List (PyVal × DynRecord))
  | [] => Except.ok []
  | x :: xs => do
    let r ← sortPairsDesc xs
    insertPairDesc x r

/-- Left-to-right fallible map, as a CPython loop evaluates it: the first
raised error aborts the whole call. -/
def mapME {α β : Type} (f : α → Except PyErr β) : List α → Except PyErr (List β)
  | [] => Except.ok []
  | a :: as =>
    match f a with
    | Except.error e => Except.error e
    | Except.ok b =>
      match mapME f as with
      | Except.error e => Except.error e
      | Except.ok bs => Except.ok (b :: bs)

/-- `sorted(user_stats_list, key=lambda x: x.total_questions, reverse=True)`
on dynamic records: CPython first computes the key of every element (raising
`AttributeError` when `total_questions` is missing), then sorts stably. -/
def sortDynStats (l : List DynRecord) : Except PyErr (List (PyVal × DynRecord)) := do
  let keys ← mapME (fun r => getattr r.total_questions) l
  sortPairsDesc (keys.zip l)

/-- The text data row of rank `i` for a dynamic record: attribute accesses
and format conversions in source order, each able to raise. -/
def textRowDyn (i : Nat) (rec : DynRecord) : Except PyErr String := do
  let uname ← getattr rec.username
  let display := pyStr uname ++ medalText i
  let t ← getattr rec.total_questions
  let tf ← pyFormatPad t 15
  let e ← getattr rec.easy_count
  let ef ← pyFormatPad e 10
  let md ← getattr rec.medium_count
  let mf ← pyFormatPad md 10
  let hd ← getattr rec.hard_count
  let hf ← pyFormatPad hd 10
  return padStr display 25 ++ " " ++ tf ++ " " ++ ef ++ " " ++ mf ++ " " ++ hf

/-- `TextPresenter.present_stats` on dynamic records. -/
def textPresentDyn (l : List DynRecord) (days : Int) (msg : Option String) :
    Except PyErr String := do
  let sorted ← sortDynStats l
  let rows ← mapME (fun p => textRowDyn p.1 p.2.2) sorted.enum
  return joinLines (("\n" ++ titleLine days) :: sep80 :: textHeaderRow :: sep80 ::
    (rows ++ [sep80] ++ msgLines msg))

/-- The seven HTML row lines of rank `i` for a dynamic record: the cells use
plain `str()` interpolation (no format spec), so only missing attributes can
raise here — ill-typed values are rendered as their `str()`. -/
def htmlRowDyn (i : Nat) (rec : DynRecord) : Except PyErr (List String) := do
  let uname ← getattr rec.username
  let t ← getattr rec.total_questions
  let e ← getattr rec.easy_count
  let md ← getattr rec.medium_count
  let hd ← getattr rec.hard_count
  return ["    <tr" ++ HtmlPresenter.rowCls i ++ ">",
    "        <td><a href=\"https://leetcode.com/u/" ++ pyStr uname ++
      "/\" target=\"_blank\">" ++ pyStr uname ++ "</a>" ++ HtmlPresenter.medal i ++ "</td>",
    "        <td>" ++ pyStr t ++ "</td>",
    "        <td>" ++ pyStr e ++ "</td>",
    "        <td>" ++ pyStr md ++ "</td>",
    "        <td>" ++ pyStr hd ++ "</td>",
    "    </tr>"]

/-- `HtmlPresenter.present_stats` on dynamic records. -/
def htmlPresentDyn (l : List DynRecord) (days : Int) (msg : Option String) :
    Except PyErr String := do
  let sorted ← sortDynStats l
  let rows ← mapME (fun p => htmlRowDyn p.1 p.2.2) sorted.enum
  return joinLines (HtmlPresenter.headerLines ++ HtmlPresenter.statsHeaderLines days ++
    rows.flatten ++ ["</table>"] ++ HtmlPresenter.msgDivLines msg ++ ["</body>", "</html>"])

/-- Whether a fallible render succeeded. -/
def isOkE {ε α : Type} : Except ε α → Bool
  | Except.ok _ => true
  | Except.error _ => false

end Dyn

/-! ## General lemmas about the embedded helpers -/

set_option maxRecDepth 100000

theorem joinLines_append_singleton :
    ∀ (ls : List String) (x : String), ls ≠ [] →
      joinLines (ls ++ [x]) = joinLines ls ++ "\n" ++ x
  | [], _, h => absurd rfl h
  | [a], x, _ => rfl
  | a :: b :: ls, x, _ => by
    have ih := joinLines_append_singleton (b :: ls) x (by simp)
    calc joinLines ((a :: b :: ls) ++ [x])
        = a ++ "\n" ++ joinLines ((b :: ls) ++ [x]) := rfl
      _ = a ++ "\n" ++ (joinLines (b :: ls) ++ "\n" ++ x) := by rw [ih]
      _ = (a ++ "\n" ++ joinLines (b :: ls)) ++ "\n" ++ x := by
          simp [String.append_assoc]

/-! ## Claim theorems: factory, persistence, trivial rendering facts -/

/-- C4: the factory returns the HTML presenter exactly for keys equal to
"html" case-insensitively; every other key, and the absent key (which
defaults to "text"), yields the text presenter, and no error is possible
(the factory is a total function). -/
theorem c4_factory_selects_by_case_insensitive_key (key : String) :
    (get_presenter key = PresenterKind.html ↔ caseInsensitiveEq key "html")
    ∧ (get_presenter key = PresenterKind.text ↔ ¬ caseInsensitiveEq key "html")
    ∧ get_presenter defaultOutputType = PresenterKind.text
    ∧ get_presenter = PresenterKind.text := by
  have hlow : strLower ("html") = "html" := by decide
  have hdef : get_presenter defaultOutputType = PresenterKind.text := by decide
  by_cases h : strLower key = "html"
  · refine ⟨?_, ?_, hdef, hdef⟩ <;>
      simp [get_presenter, caseInsensitiveEq, h, hlow]
  · refine ⟨?_, ?_, hdef, hdef⟩ <;>
      simp [get_presenter, caseInsensitiveEq, h, hlow]

/-- C4 witness: the factory at the concrete keys "HTML" and at the default
key behaves as stated. -/
theorem c4_factory_selects_by_case_insensitive_key_witness :
    (get_presenter ("HTML") = PresenterKind.html ↔ caseInsensitiveEq ("HTML") ("html"))
    ∧ (get_presenter ("HTML") = PresenterKind.text ↔ ¬ caseInsensitiveEq ("HTML") ("html"))
    ∧ get_presenter defaultOutputType = PresenterKind.text
    ∧ get_presenter = PresenterKind.text :=
  c4_factory_selects_by_case_insensitive_key ("HTML")

/-- C5: `write_to_file` writes to the base filename with the presenter's
canonical extension appended unless already present, and the map update
overwrites exactly that path with exactly the given content, leaving every
other path unchanged; text uses `.txt`, HTML uses `.html`. -/
theorem c5_persist_appends_extension_and_overwrites
    (fs : String → Option String) (fn c : String) :
    (strEndsWith fn (".txt") = false → TextPresenter.target fn = fn ++ ".txt")
    ∧ (strEndsWith fn (".txt") = true → TextPresenter.target fn = fn)
    ∧ TextPresenter.write_to_file fs fn c (TextPresenter.target fn) = some c
    ∧ (∀ q, q ≠ TextPresenter.target fn → TextPresenter.write_to_file fs fn c q = fs q)
    ∧ (strEndsWith fn (".html") = false → HtmlPresenter.target fn = fn ++ ".html")
    ∧ (strEndsWith fn (".html") = true → HtmlPresenter.target fn = fn)
    ∧ HtmlPresenter.write_to_file fs fn c (HtmlPresenter.target fn) = some c
    ∧ (∀ q, q ≠ HtmlPresenter.target fn → HtmlPresenter.write_to_file fs fn c q = fs q) := by
  refine ⟨fun h => ?_, fun h => ?_, ?_, fun q hq => ?_, fun h => ?_, fun h => ?_, ?_,
    fun q hq => ?_⟩
  · simp [TextPresenter.target, h]
  · simp [TextPresenter.target, h]
  · simp [TextPresenter.write_to_file]
  · simp [TextPresenter.write_to_file, hq]
  · simp [HtmlPresenter.target, h]
  · simp [HtmlPresenter.target, h]
  · simp [HtmlPresenter.write_to_file]
  · simp [HtmlPresenter.write_to_file, hq]

/-- C5 witness: persisting under base filename "report" with content "hi"
over an empty file system. -/
theorem c5_persist_appends_extension_and_overwrites_witness :
    (strEndsWith ("report") (".txt") = false → TextPresenter.target ("report") = "report" ++ ".txt")
    ∧ (strEndsWith ("report") (".txt") = true → TextPresenter.target ("report") = "report")
    ∧ TextPresenter.write_to_file (fun _ => none) ("report") ("hi")
        (TextPresenter.target ("report")) = some "hi"
    ∧ (∀ q, q ≠ TextPresenter.target ("report") →
        TextPresenter.write_to_file (fun _ => none) ("report") ("hi") q = none)
    ∧ (strEndsWith ("report") (".html") = false →
        HtmlPresenter.target ("report") = "report" ++ ".html")
    ∧ (strEndsWith ("report") (".html") = true → HtmlPresenter.target ("report") = "report")
    ∧ HtmlPresenter.write_to_file (fun _ => none) ("report") ("hi")
        (HtmlPresenter.target ("report")) = some "hi"
    ∧ (∀ q, q ≠ HtmlPresenter.target ("report") →
        HtmlPresenter.write_to_file (fun _ => none) ("report") ("hi") q = none) :=
  c5_persist_appends_extension_and_overwrites (fun _ => none) ("report") ("hi")

/-- C6: for the empty stats sequence and any day window, both renderers
succeed (they are total functions) and produce exactly the header and footer
with zero data rows. -/
theorem c6_empty_stats_header_footer_no_rows (days : Int) (msg : Option String) :
    TextPresenter.outputLines [] days msg =
      ["\n" ++ titleLine days, sep80, textHeaderRow, sep80, sep80] ++ msgLines msg
    ∧ HtmlPresenter.outputLines [] days msg =
      HtmlPresenter.headerLines ++ HtmlPresenter.statsHeaderLines days ++ ["</table>"] ++
        HtmlPresenter.msgDivLines msg ++ ["</body>", "</html>"] := by
  constructor <;>
    simp [TextPresenter.outputLines, HtmlPresenter.outputLines, sortStats]

/-- C8 counterexample: the claim fails for the supplied empty completion
message, which the text presenter drops entirely instead of appending it as
a final line after the closing rule. -/
theorem c8_counterexample_empty_message_not_appended :
    ¬ (TextPresenter.present_stats [] 7 (some "") =
        TextPresenter.present_stats [] 7 none ++ "\n" ++ "") := by
  decide

/-- C8 (amended): when a non-empty completion message is supplied, the text
report is exactly the message-free report with the message appended verbatim
as one final line; with no message supplied the last line is the closing
80-dash rule. -/
theorem c8_nonempty_completion_message_is_final_line
    (l : List UserStats) (days : Int) (m : String) (hm : m ≠ "") :
    TextPresenter.present_stats l days (some m) =
      TextPresenter.present_stats l days none ++ "\n" ++ m
    ∧ (TextPresenter.outputLines l days none).getLast? = some sep80 := by
  constructor
  · have hsplit : TextPresenter.outputLines l days (some m) =
        TextPresenter.outputLines l days none ++ [m] := by
      simp [TextPresenter.outputLines, msgLines, hm]
    rw [TextPresenter.present_stats, TextPresenter.present_stats, hsplit,
      joinLines_append_singleton _ _ (by simp [TextPresenter.outputLines])]
  · have hshape : TextPresenter.outputLines l days none =
        (("\n" ++ titleLine days) :: sep80 :: textHeaderRow :: sep80 ::
          (sortStats l).enum.map (fun p => textRow p.1 p.2)) ++ [sep80] := by
      simp [TextPresenter.outputLines, msgLines]
    rw [hshape, List.getLast?_concat]

/-- C8 witness: the amended statement at the concrete message "Done". -/
theorem c8_nonempty_completion_message_is_final_line_witness :
    TextPresenter.present_stats [] 7 (some "Done") =
      TextPresenter.present_stats [] 7 none ++ "\n" ++ "Done"
    ∧ (TextPresenter.outputLines [] 7 none).getLast? = some sep80 :=
  c8_nonempty_completion_message_is_final_line [] 7 ("Done") (by decide)

/-! ## Sorting: order, permutation and stability -/

theorem filter_orderedInsert_pos (v : Nat) (a : UserStats) (ha : a.total_questions = v) :
    ∀ l : List UserStats,
      (l.orderedInsert byTotalDesc a).filter (fun u => u.total_questions == v)
        = a :: l.filter (fun u => u.total_questions == v)
  | [] => by simp [ha]
  | b :: l => by
    by_cases h : byTotalDesc a b
    · simp [List.orderedInsert, h, ha]
    · have hb : b.total_questions ≠ v := by
        simp only [byTotalDesc, not_le] at h
        omega
      simp [List.orderedInsert, h, hb, filter_orderedInsert_pos v a ha l]

theorem filter_orderedInsert_neg (v : Nat) (a : UserStats) (ha : a.total_questions ≠ v) :
    ∀ l : List UserStats,
      (l.orderedInsert byTotalDesc a).filter (fun u => u.total_questions == v)
        = l.filter (fun u => u.total_questions == v)
  | [] => by simp [ha]
  | b :: l => by
    by_cases h : byTotalDesc a b
    · simp [List.orderedInsert, h, ha]
    · simp only [List.orderedInsert, if_neg h]
      rw [List.filter_cons, List.filter_cons, filter_orderedInsert_neg v a ha l]

theorem filter_sortStats (v : Nat) :
    ∀ l : List UserStats,
      (sortStats l).filter (fun u => u.total_questions == v)
        = l.filter (fun u => u.total_questions == v)
  | [] => rfl
  | x :: l => by
    show ((sortStats l).orderedInsert byTotalDesc x).filter _ = _
    by_cases hx : x.total_questions = v
    · rw [filter_orderedInsert_pos v x hx (sortStats l), filter_sortStats v l]
      simp [hx]
    · rw [filter_orderedInsert_neg v x hx (sortStats l), filter_sortStats v l]
      simp [hx]

theorem length_sortStats (l : List UserStats) : (sortStats l).length = l.length :=
  (List.perm_insertionSort byTotalDesc l).length_eq

theorem mem_sortStats {u : UserStats} {l : List UserStats} (h : u ∈ sortStats l) : u ∈ l :=
  (List.perm_insertionSort byTotalDesc l).subset h

theorem flatten_rowLines_length (xs : List (Nat × UserStats)) :
    ((xs.map (fun p => HtmlPresenter.rowLines p.1 p.2)).flatten).length = 7 * xs.length := by
  induction xs with
  | nil => rfl
  | cons x xs ih =>
    simp only [List.map_cons, List.flatten_cons, List.length_append, ih, List.length_cons]
    rw [show (HtmlPresenter.rowLines x.1 x.2).length = 7 from rfl]
    omega

theorem textOutput_drop_four (l : List UserStats) (days : Int) (msg : Option String) :
    (TextPresenter.outputLines l days msg).drop 4 =
      (sortStats l).enum.map (fun p => textRow p.1 p.2) ++ ([sep80] ++ msgLines msg) := by
  simp [TextPresenter.outputLines]

theorem htmlHeader_length (days : Int) :
    (HtmlPresenter.headerLines ++ HtmlPresenter.statsHeaderLines days).length = 28 := by
  simp [HtmlPresenter.headerLines, HtmlPresenter.statsHeaderLines]

theorem htmlOutput_drop_28 (l : List UserStats) (days : Int) (msg : Option String) :
    (HtmlPresenter.outputLines l days msg).drop 28 =
      ((sortStats l).enum.map (fun p => HtmlPresenter.rowLines p.1 p.2)).flatten ++
        (["</table>"] ++ HtmlPresenter.msgDivLines msg ++ ["</body>", "</html>"]) := by
  rw [HtmlPresenter.outputLines]
  rw [show HtmlPresenter.headerLines ++ HtmlPresenter.statsHeaderLines days ++
        ((sortStats l).enum.map (fun p => HtmlPresenter.rowLines p.1 p.2)).flatten ++
        ["</table>"] ++ HtmlPresenter.msgDivLines msg ++ ["</body>", "</html>"]
      = (HtmlPresenter.headerLines ++ HtmlPresenter.statsHeaderLines days) ++
        (((sortStats l).enum.map (fun p => HtmlPresenter.rowLines p.1 p.2)).flatten ++
          (["</table>"] ++ HtmlPresenter.msgDivLines msg ++ ["</body>", "</html>"]))
      by simp [List.append_assoc]]
  exact List.drop_left' (htmlHeader_length days)

/-- C1: in both renderers the data rows of the report are exactly the rows of
the stably sorted list: the sorted list is a permutation of the input,
pairwise in descending `total_questions` order, and for every total value the
records carrying it keep their original relative order (filter stability). -/
theorem c1_rows_sorted_descending_and_stable (l : List UserStats) (days : Int)
    (msg : Option String) :
    ((TextPresenter.outputLines l days msg).drop 4).take (sortStats l).length
        = (sortStats l).enum.map (fun p => textRow p.1 p.2)
    ∧ ((HtmlPresenter.outputLines l days msg).drop 28).take (7 * (sortStats l).length)
        = ((sortStats l).enum.map (fun p => HtmlPresenter.rowLines p.1 p.2)).flatten
    ∧ (sortStats l).Sorted byTotalDesc
    ∧ (sortStats l).Perm l
    ∧ (∀ v : Nat, (sortStats l).filter (fun u => u.total_questions == v)
        = l.filter (fun u => u.total_questions == v)) := by
  refine ⟨?_, ?_, List.sorted_insertionSort byTotalDesc l, List.perm_insertionSort byTotalDesc l,
    fun v => filter_sortStats v l⟩
  · rw [textOutput_drop_four]
    exact List.take_left' (by simp [List.enum])
  · rw [htmlOutput_drop_28]
    exact List.take_left' (by rw [flatten_rowLines_length]; simp [List.enum])

/-! ## Medal markers on the top three rows -/

theorem flatten_rowLines_slice :
    ∀ (xs : List UserStats) (k i : Nat) (u : UserStats), xs.get? i = some u →
      ((((xs.enumFrom k).map (fun p => HtmlPresenter.rowLines p.1 p.2)).flatten.drop
        (7 * i)).take 7) = HtmlPresenter.rowLines (k + i) u := by
  intro xs
  induction xs with
  | nil => intro k i u h; simp at h
  | cons x xs ih =>
    intro k i u h
    cases i with
    | zero =>
      simp only [List.get?] at h
      cases h
      simp only [List.enumFrom_cons, List.map_cons, List.flatten_cons, Nat.mul_zero,
        List.drop_zero, Nat.add_zero]
      exact List.take_left' rfl
    | succ i =>
      simp only [List.get?] at h
      have h7 : 7 * (i + 1) = 7 + 7 * i := by omega
      simp only [List.enumFrom_cons, List.map_cons, List.flatten_cons, h7]
      rw [← List.drop_drop, List.drop_left' (show (HtmlPresenter.rowLines k x).length = 7
        from rfl)]
      rw [show k + (i + 1) = (k + 1) + i by omega]
      exact ih (k + 1) i u h

/-- C2: for the row of each rank `i`, the text row shows the username with
exactly the marker `medalText i` appended and the HTML row carries exactly
the markup `HtmlPresenter.medal i`; these markers are the gold, silver and
bronze glyphs at ranks 0, 1 and 2, and are empty at every rank at least 3 —
for lists of any length, in both renderers. -/
theorem c2_medal_markers_exactly_top_three (l : List UserStats) (days : Int)
    (msg : Option String) (i : Nat) (u : UserStats)
    (h : (sortStats l).get? i = some u) :
    ((TextPresenter.outputLines l days msg).drop 4).get? i = some (textRow i u)
    ∧ (((HtmlPresenter.outputLines l days msg).drop 28).drop (7 * i)).take 7
        = HtmlPresenter.rowLines i u
    ∧ textDisplay i u = u.username ++ medalText i
    ∧ (i = 0 → medalText i = " 🥇"
        ∧ HtmlPresenter.medal i = " <span class=\"medal\">🥇</span>")
    ∧ (i = 1 → medalText i = " 🥈"
        ∧ HtmlPresenter.medal i = " <span class=\"medal\">🥈</span>")
    ∧ (i = 2 → medalText i = " 🥉"
        ∧ HtmlPresenter.medal i = " <span class=\"medal\">🥉</span>")
    ∧ (3 ≤ i → medalText i = "" ∧ HtmlPresenter.medal i = "") := by
  have hi : i < (sortStats l).length := List.get?_eq_some.mp h |>.1
  refine ⟨?_, ?_, rfl, ?_, ?_, ?_, ?_⟩
  · rw [textOutput_drop_four]
    rw [List.get?_append (by simpa [List.enum] using hi)]
    have h' : (sortStats l)[i]? = some u := by
      rw [← List.get?_eq_getElem?]
      exact h
    simp [List.get?_eq_getElem?, List.getElem?_map, List.getElem?_enum, h']
  · rw [htmlOutput_drop_28]
    have hlen : 7 * i + 7 ≤
        (((sortStats l).enum.map (fun p => HtmlPresenter.rowLines p.1 p.2)).flatten).length := by
      rw [flatten_rowLines_length]
      simp only [List.enum_length]
      omega
    rw [List.drop_append_of_le_length (by omega)]
    rw [List.take_append_of_le_length (by simp only [List.length_drop]; omega)]
    have := flatten_rowLines_slice (sortStats l) 0 i u h
    simpa [List.enum] using this
  · intro hi0; subst hi0; exact ⟨rfl, rfl⟩
  · intro hi1; subst hi1; exact ⟨rfl, rfl⟩
  · intro hi2; subst hi2; exact ⟨rfl, rfl⟩
  · intro hi3
    constructor
    · simp only [medalText]
      rw [if_neg (by omega), if_neg (by omega), if_neg (by omega)]
    · simp only [HtmlPresenter.medal]
      rw [if_neg (by omega), if_neg (by omega), if_neg (by omega)]

/-- C2 witness: in a four-user report, rank 3 (the fourth row) carries no
marker while ranks 0, 1, 2 carry gold, silver, bronze. -/
theorem c2_medal_markers_exactly_top_three_witness :
    ((TextPresenter.outputLines
        [⟨"a", 9, 9, 0, 0⟩, ⟨"b", 7, 7, 0, 0⟩, ⟨"c", 5, 5, 0, 0⟩, ⟨"d", 3, 3, 0, 0⟩]
        7 none).drop 4).get? 3 = some (textRow 3 ⟨"d", 3, 3, 0, 0⟩)
    ∧ (((HtmlPresenter.outputLines
        [⟨"a", 9, 9, 0, 0⟩, ⟨"b", 7, 7, 0, 0⟩, ⟨"c", 5, 5, 0, 0⟩, ⟨"d", 3, 3, 0, 0⟩]
        7 none).drop 28).drop (7 * 3)).take 7 = HtmlPresenter.rowLines 3 ⟨"d", 3, 3, 0, 0⟩
    ∧ textDisplay 3 ⟨"d", 3, 3, 0, 0⟩ = "d" ++ medalText 3
    ∧ (3 = 0 → medalText 3 = " 🥇"
        ∧ HtmlPresenter.medal 3 = " <span class=\"medal\">🥇</span>")
    ∧ (3 = 1 → medalText 3 = " 🥈"
        ∧ HtmlPresenter.medal 3 = " <span class=\"medal\">🥈</span>")
    ∧ (3 = 2 → medalText 3 = " 🥉"
        ∧ HtmlPresenter.medal 3 = " <span class=\"medal\">🥉</span>")
    ∧ (3 ≤ 3 → medalText 3 = "" ∧ HtmlPresenter.medal 3 = "") :=
  c2_medal_markers_exactly_top_three
    [⟨"a", 9, 9, 0, 0⟩, ⟨"b", 7, 7, 0, 0⟩, ⟨"c", 5, 5, 0, 0⟩, ⟨"d", 3, 3, 0, 0⟩]
    7 none 3 ⟨"d", 3, 3, 0, 0⟩ (by decide)

/-! ## Error behaviour on invalid (dynamic) input -/

theorem except_error_bind {ε α β : Type} (e : ε) (f : α → Except ε β) :
    (Except.error e >>= f) = Except.error e := rfl

theorem except_ok_bind {ε α β : Type} (a : α) (f : α → Except ε β) :
    (Except.ok a >>= f) = f a := rfl

theorem mapME_getattr_err :
    ∀ l : List Dyn.DynRecord, (∃ r ∈ l, r.total_questions = none) →
      Dyn.mapME (fun r => Dyn.getattr r.total_questions) l =
        Except.error Dyn.PyErr.attributeError
  | [], h => by simp at h
  | r :: l, h => by
    cases hr : r.total_questions with
    | none => simp [Dyn.mapME, Dyn.getattr, hr]
    | some v =>
      obtain ⟨r', hmem, hnone⟩ := h
      rcases List.mem_cons.mp hmem with heq | hmem'
      · subst heq
        rw [hr] at hnone
        cases hnone
      · have ih := mapME_getattr_err l ⟨r', hmem', hnone⟩
        simp only [Dyn.getattr] at ih
        simp [Dyn.mapME, Dyn.getattr, hr, ih]

/-- C3 counterexample: two records that are not valid UserStat-shaped
records — one whose `total_questions` is `None`, one whose
`total_questions` is the string "abc" — for which rendering nevertheless
succeeds without raising anything: the code performs no type or shape
validation, so no `InvalidInputError` is raised for these invalid inputs. -/
theorem c3_counterexample_invalid_records_render_ok :
    Dyn.isOkE (Dyn.htmlPresentDyn
        [⟨some (Dyn.PyVal.vstr "alice"), some Dyn.PyVal.vnone,
          some (Dyn.PyVal.vint 1), some (Dyn.PyVal.vint 2), some (Dyn.PyVal.vint 3)⟩]
        7 none) = true
    ∧ Dyn.isOkE (Dyn.textPresentDyn
        [⟨some (Dyn.PyVal.vstr "bob"), some (Dyn.PyVal.vstr "abc"),
          some (Dyn.PyVal.vint 1), some (Dyn.PyVal.vint 2), some (Dyn.PyVal.vint 3)⟩]
        30 none) = true := by
  exact ⟨rfl, rfl⟩

/-- C3 (amended): a record missing the required `total_questions` attribute
makes both renderers fail at render time (during key extraction for the
sort) with an attribute error — not an `InvalidInputError`, which does not
exist in the code — while `write_to_file` takes an already rendered string
and can signal nothing about record shape at persist time; records whose
attributes are merely ill-typed may render without any error
(see the counterexample). -/
theorem c3_missing_attribute_fails_at_render_time (l : List Dyn.DynRecord) (days : Int)
    (msg : Option String) (rec : Dyn.DynRecord) (hmem : rec ∈ l)
    (hmiss : rec.total_questions = none) :
    Dyn.textPresentDyn l days msg = Except.error Dyn.PyErr.attributeError
    ∧ Dyn.htmlPresentDyn l days msg = Except.error Dyn.PyErr.attributeError := by
  have hkeys := mapME_getattr_err l ⟨rec, hmem, hmiss⟩
  constructor <;>
    simp [Dyn.textPresentDyn, Dyn.htmlPresentDyn, Dyn.sortDynStats, hkeys,
      except_error_bind, except_ok_bind]

/-- C3 witness: a single record with no `total_questions` attribute fails
both renders with an attribute error. -/
theorem c3_missing_attribute_fails_at_render_time_witness :
    Dyn.textPresentDyn
        [⟨some (Dyn.PyVal.vstr "alice"), none,
          some (Dyn.PyVal.vint 1), some (Dyn.PyVal.vint 2), some (Dyn.PyVal.vint 3)⟩]
        7 none = Except.error Dyn.PyErr.attributeError
    ∧ Dyn.htmlPresentDyn
        [⟨some (Dyn.PyVal.vstr "alice"), none,
          some (Dyn.PyVal.vint 1), some (Dyn.PyVal.vint 2), some (Dyn.PyVal.vint 3)⟩]
        7 none = Except.error Dyn.PyErr.attributeError :=
  c3_missing_attribute_fails_at_render_time
    [⟨some (Dyn.PyVal.vstr "alice"), none,
      some (Dyn.PyVal.vint 1), some (Dyn.PyVal.vint 2), some (Dyn.PyVal.vint 3)⟩]
    7 none
    ⟨some (Dyn.PyVal.vstr "alice"), none,
      some (Dyn.PyVal.vint 1), some (Dyn.PyVal.vint 2), some (Dyn.PyVal.vint 3)⟩
    (by decide) rfl

/-- C10: an empty supplied completion message renders exactly like an absent
one, in both presenters: the presence check is on truthiness. -/
theorem c10_empty_message_treated_as_absent (l : List UserStats) (days : Int) :
    TextPresenter.present_stats l days (some "") = TextPresenter.present_stats l days none
    ∧ HtmlPresenter.present_stats l days (some "") = HtmlPresenter.present_stats l days none := by
  constructor <;>
    simp [TextPresenter.present_stats, HtmlPresenter.present_stats,
      TextPresenter.outputLines, HtmlPresenter.outputLines, msgLines,
      HtmlPresenter.msgDivLines]

/-! ## Round trip: splitting joined lines -/

theorem data_joinLines : ∀ ls : List String,
    (joinLines ls).data = joinChars (ls.map String.data)
  | [] => rfl
  | [x] => rfl
  | x :: y :: rest => by
    show (x ++ "\n" ++ joinLines (y :: rest)).data = _
    rw [String.data_append, String.data_append, data_joinLines (y :: rest)]
    rw [show ("\n").data = ['\n'] from rfl]
    simp [joinChars, List.append_assoc]

theorem splitLines_no_newline : ∀ l : List Char, '\n' ∉ l → splitLines l = [l]
  | [], _ => rfl
  | c :: cs, h => by
    have hc : c ≠ '\n' := fun e => h (e ▸ List.mem_cons_self c cs)
    have ih := splitLines_no_newline cs (fun hm => h (List.mem_cons_of_mem c hm))
    simp [splitLines, hc, ih]

theorem splitLines_append_newline : ∀ (a b : List Char), '\n' ∉ a →
    splitLines (a ++ '\n' :: b) = a :: splitLines b
  | [], b, _ => by simp [splitLines]
  | c :: a, b, h => by
    have hc : c ≠ '\n' := fun e => h (e ▸ List.mem_cons_self c a)
    have ih := splitLines_append_newline a b (fun hm => h (List.mem_cons_of_mem c hm))
    simp [splitLines, hc, ih]

theorem joinChars_cons (x : List Char) (ls : List (List Char)) (h : ls ≠ []) :
    joinChars (x :: ls) = x ++ '\n' :: joinChars ls := by
  cases ls with
  | nil => exact absurd rfl h
  | cons y t => rfl

theorem joinChars_append : ∀ (xs ys : List (List Char)), xs ≠ [] → ys ≠ [] →
    joinChars (xs ++ ys) = joinChars xs ++ '\n' :: joinChars ys
  | [], _, hx, _ => absurd rfl hx
  | [x], ys, _, hy => by
    rw [List.singleton_append, joinChars_cons x ys hy]
    rfl
  | x :: x' :: xs, ys, _, hy => by
    have ih := joinChars_append (x' :: xs) ys (by simp) hy
    rw [List.cons_append, joinChars_cons x ((x' :: xs) ++ ys) (by simp),
      joinChars_cons x (x' :: xs) (by simp), ih]
    simp [List.append_assoc]

theorem splitLines_joinChars_front : ∀ (ls : List (List Char)) (rest : List Char),
    ls ≠ [] → (∀ l ∈ ls, '\n' ∉ l) →
    splitLines (joinChars ls ++ '\n' :: rest) = ls ++ splitLines rest
  | [], _, h, _ => absurd rfl h
  | [x], rest, _, hnl => by
    rw [show joinChars [x] = x from rfl,
      splitLines_append_newline x rest (hnl x (by simp))]
    rfl
  | x :: x' :: ls, rest, _, hnl => by
    have ih := splitLines_joinChars_front (x' :: ls) rest (by simp)
      (fun l hl => hnl l (List.mem_cons_of_mem x hl))
    rw [joinChars_cons x (x' :: ls) (by simp), List.append_assoc, List.cons_append,
      splitLines_append_newline x _ (hnl x (by simp)), ih]
    rfl

theorem splitLines_joinChars_head : ∀ (x : List Char) (ls : List (List Char)), '\n' ∉ x →
    ∃ t, splitLines (joinChars (x :: ls)) = x :: t
  | x, [], h => ⟨[], splitLines_no_newline x h⟩
  | x, y :: ls, h => by
    rw [joinChars_cons x (y :: ls) (by simp), splitLines_append_newline x _ h]
    exact ⟨_, rfl⟩

/-! ## Round trip: decimal digits -/

theorem digitVal_digitChar : ∀ d : Nat, d < 10 → digitVal (digitChar d) = d := by
  intro d h
  interval_cases d <;> rfl

theorem digitChar_ne : ∀ d : Nat, d < 10 → digitChar d ≠ ' ' ∧ digitChar d ≠ '\n' := by
  intro d h
  interval_cases d <;> exact ⟨by decide, by decide⟩

theorem natDigitsAux_eq : ∀ (n fuel : Nat) (ds : List Char), n < fuel →
    natDigitsAux fuel n ds = natDigits n ++ ds := by
  intro n
  induction n using Nat.strong_induction_on with
  | _ n ih =>
    intro fuel ds hfuel
    obtain ⟨f, rfl⟩ : ∃ f, fuel = f + 1 := ⟨fuel - 1, by omega⟩
    by_cases h10 : n < 10
    · simp [natDigitsAux, natDigits, h10]
    · have hdiv : n / 10 < n := Nat.div_lt_self (by omega) (by omega)
      have h1 : natDigitsAux (f + 1) n ds =
          natDigitsAux f (n / 10) (digitChar (n % 10) :: ds) := by
        simp [natDigitsAux, h10]
      have h2 : natDigits n = natDigits (n / 10) ++ [digitChar (n % 10)] := by
        have hx := ih (n / 10) hdiv n [digitChar (n % 10)] (by omega)
        simpa [natDigits, natDigitsAux, h10] using hx
      rw [h1, ih (n / 10) hdiv f (digitChar (n % 10) :: ds) (by omega), h2]
      simp [List.append_assoc]

theorem natDigits_decomp (n : Nat) (h : ¬ n < 10) :
    natDigits n = natDigits (n / 10) ++ [digitChar (n % 10)] := by
  have hdiv : n / 10 < n := Nat.div_lt_self (by omega) (by omega)
  have hx := natDigitsAux_eq (n / 10) n [digitChar (n % 10)] hdiv
  simpa [natDigits, natDigitsAux, h] using hx

theorem parseNat_append_digit (ds : List Char) (c : Char) :
    parseNat (ds ++ [c]) = parseNat ds * 10 + digitVal c := by
  simp [parseNat, List.foldl_append]

theorem parseNat_natDigits : ∀ n : Nat, parseNat (natDigits n) = n := by
  intro n
  induction n using Nat.strong_induction_on with
  | _ n ih =>
    by_cases h10 : n < 10
    · have h1 : natDigits n = [digitChar n] := by simp [natDigits, natDigitsAux, h10]
      rw [h1]
      simp [parseNat, digitVal_digitChar n h10]
    · have hdiv : n / 10 < n := Nat.div_lt_self (by omega) (by omega)
      rw [natDigits_decomp n h10, parseNat_append_digit, ih (n / 10) hdiv,
        digitVal_digitChar (n % 10) (by omega)]
      omega

theorem natDigits_chars : ∀ n : Nat, ∀ c ∈ natDigits n, c ≠ ' ' ∧ c ≠ '\n' := by
  intro n
  induction n using Nat.strong_induction_on with
  | _ n ih =>
    intro c hc
    by_cases h10 : n < 10
    · rw [show natDigits n = [digitChar n] from by simp [natDigits, natDigitsAux, h10]] at hc
      rcases List.mem_singleton.mp hc with rfl
      exact digitChar_ne n h10
    · have hdiv : n / 10 < n := Nat.div_lt_self (by omega) (by omega)
      rw [natDigits_decomp n h10] at hc
      rcases List.mem_append.mp hc with h | h
      · exact ih (n / 10) hdiv c h
      · rcases List.mem_singleton.mp h with rfl
        exact digitChar_ne (n % 10) (by omega)

theorem takeWhile_digits_pad (n k : Nat) :
    (natDigits n ++ List.replicate k ' ').takeWhile (fun c => c != ' ') = natDigits n := by
  rw [List.takeWhile_append_of_pos
    (by intro a ha; simp [bne_iff_ne, (natDigits_chars n a ha).1])]
  cases k with
  | zero => simp
  | succ k =>
    rw [List.replicate_succ]
    simp [List.takeWhile_cons]

/-! ## Round trip: fixed-width text rows -/

theorem space_data : (" ").data = [' '] := rfl

theorem natRepr_data (n : Nat) : (natRepr n).data = natDigits n := rfl

theorem natRepr_length (n : Nat) : (natRepr n).length = (natDigits n).length := rfl

theorem sep80_data : sep80.data = List.replicate 80 '-' := rfl

theorem padStr_data (s : String) (w : Nat) :
    (padStr s w).data = s.data ++ List.replicate (w - s.data.length) ' ' := rfl

theorem str_length_data (s : String) : s.length = s.data.length := rfl

theorem padStr_data_length (s : String) (w : Nat) (h : s.data.length ≤ w) :
    (padStr s w).data.length = w := by
  rw [padStr_data, List.length_append, List.length_replicate]
  omega

theorem natRepr_noNL (n : Nat) : '\n' ∉ (natRepr n).data := by
  rw [natRepr_data]
  intro h
  exact (natDigits_chars n '\n' h).2 rfl

theorem intRepr_noNL (i : Int) : '\n' ∉ (intRepr i).data := by
  unfold intRepr
  split_ifs
  · rw [String.data_append]
    intro h
    rcases List.mem_append.mp h with h | h
    · revert h
      decide
    · exact natRepr_noNL _ h
  · exact natRepr_noNL _

theorem sep80_noNL : '\n' ∉ sep80.data := by
  rw [sep80_data]
  simp [List.mem_replicate]

theorem medalText_facts (i : Nat) :
    (medalText i).data.length ≤ 2 ∧ '\n' ∉ (medalText i).data := by
  unfold medalText
  split_ifs <;> exact ⟨by decide, by decide⟩

theorem textDisplay_data (i : Nat) (u : UserStats) :
    (textDisplay i u).data = u.username.data ++ (medalText i).data := rfl

theorem textDisplay_data_length (i : Nat) (u : UserStats) (h : u.username.length ≤ 23) :
    (textDisplay i u).data.length ≤ 25 := by
  rw [textDisplay_data, List.length_append]
  have h2 := (medalText_facts i).1
  have hu : u.username.data.length ≤ 23 := h
  omega

theorem textDisplay_noNL (i : Nat) (u : UserStats) (h : '\n' ∉ u.username.data) :
    '\n' ∉ (textDisplay i u).data := by
  rw [textDisplay_data]
  intro hm
  rcases List.mem_append.mp hm with hm | hm
  · exact h hm
  · exact (medalText_facts i).2 hm

theorem fixedField_extract (o w n : Nat) (pre post : List Char)
    (hpre : pre.length = o) (hw : (natDigits n).length ≤ w) :
    fixedField o w
        (pre ++ ((natDigits n ++ List.replicate (w - (natDigits n).length) ' ') ++ post))
      = natDigits n := by
  unfold fixedField
  rw [List.drop_left' hpre]
  rw [List.take_left' (by simp; omega)]
  exact takeWhile_digits_pad n _

theorem stripCell_td (pre : String) (hpre : pre.data.length = 12) (n : Nat) :
    stripCell (((pre ++ natRepr n) ++ "</td>").data) = natDigits n := by
  have hdata : ((pre ++ natRepr n) ++ "</td>").data =
      pre.data ++ (natDigits n ++ ("</td>").data) := by
    simp [natRepr_data, List.append_assoc]
  have hlen : ((pre ++ natRepr n) ++ "</td>").data.length - 17 = (natDigits n).length := by
    rw [hdata]
    simp [hpre, show ("</td>").data.length = 5 from rfl]
    omega
  unfold stripCell
  rw [hlen, hdata, List.drop_left' hpre, List.take_left' rfl]

theorem textRow_split_total (i : Nat) (u : UserStats) :
    (textRow i u).data =
      ((padStr (textDisplay i u) 25).data ++ [' ']) ++
      ((natDigits u.total_questions ++
          List.replicate (15 - (natDigits u.total_questions).length) ' ') ++
        ([' '] ++ ((padStr (natRepr u.easy_count) 10).data ++
          ([' '] ++ ((padStr (natRepr u.medium_count) 10).data ++
            ([' '] ++ (padStr (natRepr u.hard_count) 10).data)))))) := by
  simp only [textRow, String.data_append, padStr_data, natRepr_data, space_data,
    List.append_assoc, List.append_nil]

theorem textRow_split_easy (i : Nat) (u : UserStats) :
    (textRow i u).data =
      ((((padStr (textDisplay i u) 25).data ++ [' ']) ++
          (padStr (natRepr u.total_questions) 15).data) ++ [' ']) ++
      ((natDigits u.easy_count ++
          List.replicate (10 - (natDigits u.easy_count).length) ' ') ++
        ([' '] ++ ((padStr (natRepr u.medium_count) 10).data ++
          ([' '] ++ (padStr (natRepr u.hard_count) 10).data)))) := by
  simp only [textRow, String.data_append, padStr_data, natRepr_data, space_data,
    List.append_assoc, List.append_nil]

theorem textRow_split_medium (i : Nat) (u : UserStats) :
    (textRow i u).data =
      ((((((padStr (textDisplay i u) 25).data ++ [' ']) ++
          (padStr (natRepr u.total_questions) 15).data) ++ [' ']) ++
          (padStr (natRepr u.easy_count) 10).data) ++ [' ']) ++
      ((natDigits u.medium_count ++
          List.replicate (10 - (natDigits u.medium_count).length) ' ') ++
        ([' '] ++ (padStr (natRepr u.hard_count) 10).data)) := by
  simp only [textRow, String.data_append, padStr_data, natRepr_data, space_data,
    List.append_assoc, List.append_nil]

theorem textRow_split_hard (i : Nat) (u : UserStats) :
    (textRow i u).data =
      ((((((((padStr (textDisplay i u) 25).data ++ [' ']) ++
          (padStr (natRepr u.total_questions) 15).data) ++ [' ']) ++
          (padStr (natRepr u.easy_count) 10).data) ++ [' ']) ++
          (padStr (natRepr u.medium_count) 10).data) ++ [' ']) ++
      ((natDigits u.hard_count ++
          List.replicate (10 - (natDigits u.hard_count).length) ' ') ++ []) := by
  simp only [textRow, String.data_append, padStr_data, natRepr_data, space_data,
    List.append_assoc, List.append_nil]

theorem textRow_parse (i : Nat) (u : UserStats)
    (h25 : (textDisplay i u).data.length ≤ 25)
    (ht : (natDigits u.total_questions).length ≤ 15)
    (he : (natDigits u.easy_count).length ≤ 10)
    (hm : (natDigits u.medium_count).length ≤ 10)
    (hh : (natDigits u.hard_count).length ≤ 10) :
    parseTextRow (textRow i u).data = numericFields u := by
  have hDlen : (padStr (textDisplay i u) 25).data.length = 25 := padStr_data_length _ _ h25
  have hTlen : (padStr (natRepr u.total_questions) 15).data.length = 15 :=
    padStr_data_length _ _ ht
  have hElen : (padStr (natRepr u.easy_count) 10).data.length = 10 :=
    padStr_data_length _ _ he
  have hMlen : (padStr (natRepr u.medium_count) 10).data.length = 10 :=
    padStr_data_length _ _ hm
  have f1 : fixedField 26 15 (textRow i u).data = natDigits u.total_questions := by
    rw [textRow_split_total]
    exact fixedField_extract 26 15 _ _ _ (by simp [hDlen]) ht
  have f2 : fixedField 42 10 (textRow i u).data = natDigits u.easy_count := by
    rw [textRow_split_easy]
    exact fixedField_extract 42 10 _ _ _ (by simp [hDlen, hTlen]) he
  have f3 : fixedField 53 10 (textRow i u).data = natDigits u.medium_count := by
    rw [textRow_split_medium]
    exact fixedField_extract 53 10 _ _ _ (by simp [hDlen, hTlen, hElen]) hm
  have f4 : fixedField 64 10 (textRow i u).data = natDigits u.hard_count := by
    rw [textRow_split_hard]
    exact fixedField_extract 64 10 _ _ _ (by simp [hDlen, hTlen, hElen, hMlen]) hh
  simp only [parseTextRow, f1, f2, f3, f4, parseNat_natDigits]
  rfl

theorem textRow_length (i : Nat) (u : UserStats)
    (h25 : (textDisplay i u).data.length ≤ 25)
    (ht : (natDigits u.total_questions).length ≤ 15)
    (he : (natDigits u.easy_count).length ≤ 10)
    (hm : (natDigits u.medium_count).length ≤ 10)
    (hh : (natDigits u.hard_count).length ≤ 10) :
    (textRow i u).data.length = 74 := by
  have hDlen : (padStr (textDisplay i u) 25).data.length = 25 := padStr_data_length _ _ h25
  have hTlen : (padStr (natRepr u.total_questions) 15).data.length = 15 :=
    padStr_data_length _ _ ht
  have hElen : (padStr (natRepr u.easy_count) 10).data.length = 10 :=
    padStr_data_length _ _ he
  have hMlen : (padStr (natRepr u.medium_count) 10).data.length = 10 :=
    padStr_data_length _ _ hm
  have hHlen : (padStr (natRepr u.hard_count) 10).data.length = 10 :=
    padStr_data_length _ _ hh
  rw [textRow_split_hard]
  simp [List.length_append, hDlen, hTlen, hElen, hMlen]
  have := hHlen
  rw [padStr_data, List.length_append, List.length_replicate] at this
  omega

theorem textRow_noNL (i : Nat) (u : UserStats) (hu : '\n' ∉ u.username.data) :
    '\n' ∉ (textRow i u).data := by
  have hdig : ∀ x : Nat, '\n' ∉ natDigits x := fun x hx => (natDigits_chars x _ hx).2 rfl
  have hdisp := textDisplay_noNL i u hu
  have hsp : ('\n' : Char) ≠ ' ' := by decide
  simp [textRow, padStr_data, natRepr_data, space_data, List.mem_append,
    List.mem_replicate, hdig, hdisp, hsp]

/-! ## Round trip: the whole text report -/

theorem titleLine_noNL (days : Int) : '\n' ∉ (titleLine days).data := by
  unfold titleLine
  intro h
  simp only [String.data_append, List.mem_append] at h
  rcases h with (h | h) | h
  · revert h
    decide
  · exact intRepr_noNL days h
  · revert h
    decide

theorem textHeaderRow_noNL : '\n' ∉ textHeaderRow.data := by decide

theorem drop_five_cons {α : Type} (a b c d e : α) (X : List α) :
    (a :: b :: c :: d :: e :: X).drop 5 = X := rfl

theorem snd_mem_of_mem_enum {α : Type} {xs : List α} {p : Nat × α} (hp : p ∈ xs.enum) :
    p.2 ∈ xs := by
  have hm := List.mem_map_of_mem Prod.snd hp
  rwa [show xs.enum = List.enumFrom 0 xs from rfl, List.enumFrom_map_snd] at hm

theorem splitLines_textReport (l : List UserStats) (days : Int) (msg : Option String)
    (hrows : ∀ cs ∈ ((sortStats l).enum.map (fun p => textRow p.1 p.2)).map String.data,
      '\n' ∉ cs) :
    splitLines (TextPresenter.present_stats l days msg).data
      = [] :: (titleLine days).data :: sep80.data :: textHeaderRow.data :: sep80.data ::
        (((sortStats l).enum.map (fun p => textRow p.1 p.2)).map String.data ++
          splitLines (joinChars (sep80.data :: (msgLines msg).map String.data))) := by
  rw [TextPresenter.present_stats, data_joinLines]
  have hmap : (TextPresenter.outputLines l days msg).map String.data =
      ('\n' :: (titleLine days).data) ::
        ((sep80.data :: textHeaderRow.data :: sep80.data ::
            ((sortStats l).enum.map (fun p => textRow p.1 p.2)).map String.data) ++
          (sep80.data :: (msgLines msg).map String.data)) := by
    simp [TextPresenter.outputLines, show ("\n").data = ['\n'] from rfl]
  rw [hmap]
  rw [joinChars_cons _ _ (by simp)]
  rw [joinChars_append
    (sep80.data :: textHeaderRow.data :: sep80.data ::
      ((sortStats l).enum.map (fun p => textRow p.1 p.2)).map String.data)
    (sep80.data :: (msgLines msg).map String.data) (by simp) (by simp)]
  rw [List.cons_append]
  rw [show ∀ X : List Char, splitLines ('\n' :: X) = [] :: splitLines X from
    fun X => by simp [splitLines]]
  rw [splitLines_append_newline _ _ (titleLine_noNL days)]
  rw [splitLines_joinChars_front _ _ (by simp) (by
    intro x hx
    rcases List.mem_cons.mp hx with rfl | hx
    · exact sep80_noNL
    rcases List.mem_cons.mp hx with rfl | hx
    · exact textHeaderRow_noNL
    rcases List.mem_cons.mp hx with rfl | hx
    · exact sep80_noNL
    exact hrows x hx)]
  simp [List.cons_append, List.append_assoc]

theorem textRows_pred (l : List UserStats)
    (husr : ∀ u ∈ l, u.username.length ≤ 23)
    (ht : ∀ u ∈ l, (natDigits u.total_questions).length ≤ 15)
    (he : ∀ u ∈ l, (natDigits u.easy_count).length ≤ 10)
    (hm : ∀ u ∈ l, (natDigits u.medium_count).length ≤ 10)
    (hh : ∀ u ∈ l, (natDigits u.hard_count).length ≤ 10) :
    ∀ cs ∈ ((sortStats l).enum.map (fun p => textRow p.1 p.2)).map String.data,
      (cs != List.replicate 80 '-') = true := by
  intro cs hcs
  obtain ⟨s, hs, rfl⟩ := List.mem_map.mp hcs
  obtain ⟨p, hp, rfl⟩ := List.mem_map.mp hs
  have hu : p.2 ∈ l := mem_sortStats (snd_mem_of_mem_enum hp)
  have hlen := textRow_length p.1 p.2 (textDisplay_data_length p.1 p.2 (husr _ hu))
    (ht _ hu) (he _ hu) (hm _ hu) (hh _ hu)
  rw [bne_iff_ne]
  intro heq
  have hl := congrArg List.length heq
  rw [hlen, List.length_replicate] at hl
  exact absurd hl (by decide)

theorem parseText_roundtrip (l : List UserStats) (days : Int) (msg : Option String)
    (husr : ∀ u ∈ l, u.username.length ≤ 23)
    (hnl : ∀ u ∈ l, '\n' ∉ u.username.data)
    (ht : ∀ u ∈ l, (natDigits u.total_questions).length ≤ 15)
    (he : ∀ u ∈ l, (natDigits u.easy_count).length ≤ 10)
    (hm : ∀ u ∈ l, (natDigits u.medium_count).length ≤ 10)
    (hh : ∀ u ∈ l, (natDigits u.hard_count).length ≤ 10) :
    parseTextReport (TextPresenter.present_stats l days msg)
      = (sortStats l).map numericFields := by
  have hmemof : ∀ p ∈ (sortStats l).enum, p.2 ∈ l :=
    fun p hp => mem_sortStats (snd_mem_of_mem_enum hp)
  have hrowsNL : ∀ cs ∈ ((sortStats l).enum.map (fun p => textRow p.1 p.2)).map String.data,
      '\n' ∉ cs := by
    intro cs hcs
    obtain ⟨s, hs, rfl⟩ := List.mem_map.mp hcs
    obtain ⟨p, hp, rfl⟩ := List.mem_map.mp hs
    exact textRow_noNL p.1 p.2 (hnl p.2 (hmemof p hp))
  rw [parseTextReport, splitLines_textReport l days msg hrowsNL, drop_five_cons]
  obtain ⟨t', ht'⟩ := splitLines_joinChars_head sep80.data
    ((msgLines msg).map String.data) sep80_noNL
  rw [ht']
  rw [List.takeWhile_append_of_pos (textRows_pred l husr ht he hm hh)]
  rw [show (sep80.data :: t').takeWhile (fun cs => cs != List.replicate 80 '-') = [] from
    by simp [List.takeWhile_cons, sep80_data]]
  rw [List.append_nil, List.map_map, List.map_map]
  have hcong : List.map ((parseTextRow ∘ String.data) ∘ fun p : Nat × UserStats =>
        textRow p.1 p.2) (sortStats l).enum
      = List.map (numericFields ∘ Prod.snd) (sortStats l).enum :=
    List.map_congr_left (fun p hp => textRow_parse p.1 p.2
      (textDisplay_data_length p.1 p.2 (husr _ (hmemof p hp)))
      (ht _ (hmemof p hp)) (he _ (hmemof p hp)) (hm _ (hmemof p hp)) (hh _ (hmemof p hp)))
  rw [hcong, ← List.map_map, show (sortStats l).enum = List.enumFrom 0 (sortStats l) from rfl,
    List.enumFrom_map_snd]

/-! ## Round trip: the whole HTML report -/

theorem rowCls_noNL (i : Nat) : '\n' ∉ (HtmlPresenter.rowCls i).data := by
  unfold HtmlPresenter.rowCls
  split_ifs <;> decide

theorem medal_noNL (i : Nat) : '\n' ∉ (HtmlPresenter.medal i).data := by
  unfold HtmlPresenter.medal
  split_ifs <;> decide

theorem rowLines_noNL (i : Nat) (u : UserStats) (hu : '\n' ∉ u.username.data) :
    ∀ cs ∈ (HtmlPresenter.rowLines i u).map String.data, '\n' ∉ cs := by
  have hdig : ∀ x : Nat, '\n' ∉ natDigits x := fun x hx => (natDigits_chars x _ hx).2 rfl
  have l0 : '\n' ∉ ("    <tr").data := by decide
  have l1 : '\n' ∉ (">").data := by decide
  have l2 : '\n' ∉ ("        <td><a href=\"https://leetcode.com/u/").data := by decide
  have l3 : '\n' ∉ ("/\" target=\"_blank\">").data := by decide
  have l4 : '\n' ∉ ("</a>").data := by decide
  have l5 : '\n' ∉ ("</td>").data := by decide
  have l6 : '\n' ∉ ("        <td>").data := by decide
  have l7 : '\n' ∉ ("    </tr>").data := by decide
  intro cs hcs
  simp only [HtmlPresenter.rowLines, List.map_cons, List.map_nil, List.mem_cons,
    List.not_mem_nil, or_false] at hcs
  rcases hcs with rfl | rfl | rfl | rfl | rfl | rfl | rfl <;>
    simp [String.data_append, List.mem_append, natRepr_data, hdig, hu,
      rowCls_noNL i, medal_noNL i, l0, l1, l2, l3, l4, l5, l6, l7]

theorem head_space_append (s t : String) (cs : List Char)
    (hs : s.data = ' ' :: cs) : (s ++ t).data = ' ' :: (cs ++ t.data) := by
  rw [String.data_append, hs, List.cons_append]

theorem ne_table_of_head_space (t : List Char) :
    ((' ' :: t) != ("</table>").data) = true := by
  rw [bne_iff_ne]
  intro h
  rw [show ("</table>").data = '<' :: ("/table>").data from rfl] at h
  exact absurd (List.cons_eq_cons.mp h).1 (by decide)

theorem rowLines_ne_table (i : Nat) (u : UserStats) :
    ∀ cs ∈ (HtmlPresenter.rowLines i u).map String.data,
      (cs != ("</table>").data) = true := by
  intro cs hcs
  simp only [HtmlPresenter.rowLines, List.map_cons, List.map_nil, List.mem_cons,
    List.not_mem_nil, or_false] at hcs
  rcases hcs with rfl | rfl | rfl | rfl | rfl | rfl | rfl
  · have h1 : ("    <tr").data = ' ' :: ("   <tr").data := rfl
    have h2 := head_space_append _ (HtmlPresenter.rowCls i) _ h1
    have h3 := head_space_append _ (">") _ h2
    rw [h3]
    exact ne_table_of_head_space _
  · have h1 : ("        <td><a href=\"https://leetcode.com/u/").data =
        ' ' :: ("       <td><a href=\"https://leetcode.com/u/").data := rfl
    have h2 := head_space_append _ u.username _ h1
    have h3 := head_space_append _ ("/\" target=\"_blank\">") _ h2
    have h4 := head_space_append _ u.username _ h3
    have h5 := head_space_append _ ("</a>") _ h4
    have h6 := head_space_append _ (HtmlPresenter.medal i) _ h5
    have h7 := head_space_append _ ("</td>") _ h6
    rw [h7]
    exact ne_table_of_head_space _
  · have h1 : ("        <td>").data = ' ' :: ("       <td>").data := rfl
    have h2 := head_space_append _ (natRepr u.total_questions) _ h1
    have h3 := head_space_append _ ("</td>") _ h2
    rw [h3]
    exact ne_table_of_head_space _
  · have h1 : ("        <td>").data = ' ' :: ("       <td>").data := rfl
    have h2 := head_space_append _ (natRepr u.easy_count) _ h1
    have h3 := head_space_append _ ("</td>") _ h2
    rw [h3]
    exact ne_table_of_head_space _
  · have h1 : ("        <td>").data = ' ' :: ("       <td>").data := rfl
    have h2 := head_space_append _ (natRepr u.medium_count) _ h1
    have h3 := head_space_append _ ("</td>") _ h2
    rw [h3]
    exact ne_table_of_head_space _
  · have h1 : ("        <td>").data = ' ' :: ("       <td>").data := rfl
    have h2 := head_space_append _ (natRepr u.hard_count) _ h1
    have h3 := head_space_append _ ("</td>") _ h2
    rw [h3]
    exact ne_table_of_head_space _
  · decide

theorem parseHtmlRows_flatten :
    ∀ (xs : List UserStats) (k : Nat),
      parseHtmlRows (((List.enumFrom k xs).map
          (fun p => (HtmlPresenter.rowLines p.1 p.2).map String.data)).flatten)
        = xs.map numericFields
  | [], _ => rfl
  | u :: xs, k => by
    have ih := parseHtmlRows_flatten xs (k + 1)
    simp only [List.enumFrom_cons, List.map_cons, List.flatten_cons]
    set rest := ((List.enumFrom (k + 1) xs).map
      (fun p => (HtmlPresenter.rowLines p.1 p.2).map String.data)).flatten with hrest
    simp only [HtmlPresenter.rowLines, List.map_cons, List.map_nil, List.cons_append,
      List.nil_append]
    simp only [parseHtmlRows]
    rw [stripCell_td ("        <td>") (by decide) u.total_questions,
      stripCell_td ("        <td>") (by decide) u.easy_count,
      stripCell_td ("        <td>") (by decide) u.medium_count,
      stripCell_td ("        <td>") (by decide) u.hard_count,
      parseNat_natDigits, parseNat_natDigits, parseNat_natDigits, parseNat_natDigits, ih]
    rfl

theorem headerLines_noNL : ∀ cs ∈ HtmlPresenter.headerLines.map String.data, '\n' ∉ cs := by
  decide

theorem statsHeaderLines_noNL (days : Int) :
    ∀ cs ∈ (HtmlPresenter.statsHeaderLines days).map String.data, '\n' ∉ cs := by
  intro cs hcs
  simp only [HtmlPresenter.statsHeaderLines, List.map_cons, List.map_nil, List.mem_cons,
    List.not_mem_nil, or_false] at hcs
  rcases hcs with rfl | rfl | rfl | rfl | rfl | rfl | rfl | rfl | rfl
  · have la : '\n' ∉ ("<h1>LeetCode Statistics (Last ").data := by decide
    have lb : '\n' ∉ (" Days)</h1>").data := by decide
    simp [String.data_append, List.mem_append, la, lb, intRepr_noNL days]
  all_goals decide

theorem splitLines_htmlReport (l : List UserStats) (days : Int) (msg : Option String)
    (hrows : ∀ cs ∈ ((sortStats l).enum.map
        (fun p => (HtmlPresenter.rowLines p.1 p.2).map String.data)).flatten, '\n' ∉ cs) :
    splitLines (HtmlPresenter.present_stats l days msg).data
      = (HtmlPresenter.headerLines.map String.data ++
          (HtmlPresenter.statsHeaderLines days).map String.data ++
          ((sortStats l).enum.map
            (fun p => (HtmlPresenter.rowLines p.1 p.2).map String.data)).flatten) ++
        splitLines (joinChars (("</table>").data ::
          ((HtmlPresenter.msgDivLines msg).map String.data ++
            [("</body>").data, ("</html>").data]))) := by
  rw [HtmlPresenter.present_stats, data_joinLines]
  have hmap : (HtmlPresenter.outputLines l days msg).map String.data =
      (HtmlPresenter.headerLines.map String.data ++
          (HtmlPresenter.statsHeaderLines days).map String.data ++
          ((sortStats l).enum.map
            (fun p => (HtmlPresenter.rowLines p.1 p.2).map String.data)).flatten) ++
        (("</table>").data ::
          ((HtmlPresenter.msgDivLines msg).map String.data ++
            [("</body>").data, ("</html>").data])) := by
    simp [HtmlPresenter.outputLines, List.map_flatten, List.map_map, List.append_assoc,
      Function.comp_def]
  rw [hmap]
  rw [joinChars_append _ _ (by simp [HtmlPresenter.headerLines]) (by simp)]
  rw [splitLines_joinChars_front _ _ (by simp [HtmlPresenter.headerLines]) (by
    intro x hx
    rcases List.mem_append.mp hx with hx | hx
    · rcases List.mem_append.mp hx with hx | hx
      · exact headerLines_noNL x hx
      · exact statsHeaderLines_noNL days x hx
    · exact hrows x hx)]

theorem parseHtml_roundtrip (l : List UserStats) (days : Int) (msg : Option String)
    (hnl : ∀ u ∈ l, '\n' ∉ u.username.data) :
    parseHtmlReport (HtmlPresenter.present_stats l days msg)
      = (sortStats l).map numericFields := by
  have hmemof : ∀ p ∈ (sortStats l).enum, p.2 ∈ l :=
    fun p hp => mem_sortStats (snd_mem_of_mem_enum hp)
  have hrowsNL : ∀ cs ∈ ((sortStats l).enum.map
      (fun p => (HtmlPresenter.rowLines p.1 p.2).map String.data)).flatten, '\n' ∉ cs := by
    intro cs hcs
    obtain ⟨block, hb, hcsb⟩ := List.mem_flatten.mp hcs
    obtain ⟨p, hp, rfl⟩ := List.mem_map.mp hb
    exact rowLines_noNL p.1 p.2 (hnl _ (hmemof p hp)) cs hcsb
  rw [parseHtmlReport, splitLines_htmlReport l days msg hrowsNL]
  rw [show (HtmlPresenter.headerLines.map String.data ++
        (HtmlPresenter.statsHeaderLines days).map String.data ++
        ((sortStats l).enum.map
          (fun p => (HtmlPresenter.rowLines p.1 p.2).map String.data)).flatten) ++
        splitLines (joinChars (("</table>").data ::
          ((HtmlPresenter.msgDivLines msg).map String.data ++
            [("</body>").data, ("</html>").data])))
      = (HtmlPresenter.headerLines.map String.data ++
          (HtmlPresenter.statsHeaderLines days).map String.data) ++
        (((sortStats l).enum.map
          (fun p => (HtmlPresenter.rowLines p.1 p.2).map String.data)).flatten ++
          splitLines (joinChars (("</table>").data ::
            ((HtmlPresenter.msgDivLines msg).map String.data ++
              [("</body>").data, ("</html>").data]))))
      from by simp [List.append_assoc]]
  rw [List.drop_left' (by
    simp [HtmlPresenter.headerLines, HtmlPresenter.statsHeaderLines])]
  obtain ⟨t', ht'⟩ := splitLines_joinChars_head ("</table>").data
    ((HtmlPresenter.msgDivLines msg).map String.data ++
      [("</body>").data, ("</html>").data]) (by decide)
  rw [ht']
  rw [List.takeWhile_append_of_pos (by
    intro cs hcs
    obtain ⟨block, hb, hcsb⟩ := List.mem_flatten.mp hcs
    obtain ⟨p, hp, rfl⟩ := List.mem_map.mp hb
    exact rowLines_ne_table p.1 p.2 cs hcsb)]
  rw [show (("</table>").data :: t').takeWhile (fun cs => cs != ("</table>").data) = []
    from by simp [List.takeWhile_cons]]
  rw [List.append_nil]
  exact parseHtmlRows_flatten (sortStats l) 0

/-- C7 counterexample: a single user whose 26-character username overflows
the nominal 25-character username column shifts every later column, so
splitting the text report on the fixed-width boundaries no longer recovers
the numeric fields (the totals column parses as 0 instead of 10). -/
theorem c7_counterexample_long_username_breaks_roundtrip :
    parseTextReport (TextPresenter.present_stats
        [⟨"abcdefghijklmnopqrstuvwxyz", 10, 5, 3, 2⟩] 7 none)
      ≠ [numericFields ⟨"abcdefghijklmnopqrstuvwxyz", 10, 5, 3, 2⟩] := by
  decide

/-- C7 (amended): for inputs whose rendered fields stay inside their
columns — every username at most 23 characters (so that even with a medal
suffix the display fits the 25-character column) and newline-free, and every
numeric field's decimal numeral no wider than its column (15 for the total,
10 for each difficulty) — parsing the rendered report back (fixed-width
splitting for text, table-cell extraction for HTML) recovers every user's
`total_questions`, `easy_count`, `medium_count` and `hard_count` exactly, in
ranked order. -/
theorem c7_roundtrip_recovers_numeric_fields (l : List UserStats) (days : Int)
    (msg : Option String)
    (husr : ∀ u ∈ l, u.username.length ≤ 23)
    (hnl : ∀ u ∈ l, '\n' ∉ u.username.data)
    (ht : ∀ u ∈ l, (natRepr u.total_questions).length ≤ 15)
    (he : ∀ u ∈ l, (natRepr u.easy_count).length ≤ 10)
    (hm : ∀ u ∈ l, (natRepr u.medium_count).length ≤ 10)
    (hh : ∀ u ∈ l, (natRepr u.hard_count).length ≤ 10) :
    parseTextReport (TextPresenter.present_stats l days msg)
      = (sortStats l).map numericFields
    ∧ parseHtmlReport (HtmlPresenter.present_stats l days msg)
      = (sortStats l).map numericFields :=
  ⟨parseText_roundtrip l days msg husr hnl ht he hm hh,
   parseHtml_roundtrip l days msg hnl⟩

/-- C7 witness: the spec's own example report round-trips in both formats. -/
theorem c7_roundtrip_recovers_numeric_fields_witness :
    parseTextReport (TextPresenter.present_stats
        [⟨"alice", 10, 5, 3, 2⟩, ⟨"bob", 10, 2, 2, 6⟩, ⟨"carol", 5, 5, 0, 0⟩] 7 none)
      = (sortStats
          [⟨"alice", 10, 5, 3, 2⟩, ⟨"bob", 10, 2, 2, 6⟩, ⟨"carol", 5, 5, 0, 0⟩]).map
        numericFields
    ∧ parseHtmlReport (HtmlPresenter.present_stats
        [⟨"alice", 10, 5, 3, 2⟩, ⟨"bob", 10, 2, 2, 6⟩, ⟨"carol", 5, 5, 0, 0⟩] 7 none)
      = (sortStats
          [⟨"alice", 10, 5, 3, 2⟩, ⟨"bob", 10, 2, 2, 6⟩, ⟨"carol", 5, 5, 0, 0⟩]).map
        numericFields :=
  c7_roundtrip_recovers_numeric_fields
    [⟨"alice", 10, 5, 3, 2⟩, ⟨"bob", 10, 2, 2, 6⟩, ⟨"carol", 5, 5, 0, 0⟩] 7 none
    (by decide) (by decide) (by decide) (by decide) (by decide) (by decide)

end LeetcodeAccountability
